import Mathlib

/-!
Shallow embedding of the playback core of the `music-player` repository:
`src/src-tauri/src/player.rs` (the `Player`) and
`src/app/src-tauri/src/music.rs` (the `Music` registry).

Modelling conventions:
* `std::time::Duration` is modelled as a `Nat` (nanoseconds); `u64` byte
  offsets are `Nat`.
* External effects (file open, tokio clone, metadata, the analyzer, std
  clone, cursor repositioning, the decoder) are passed in explicitly as a
  `LoadEnv` record describing the outcome of each external call, so the
  Rust functions become pure functions of the player state, the file and
  that record.
* A Rust `.unwrap()` on a fallible external call is modelled as a
  `.panic` outcome: the process aborts and no player state survives.
* The `rodio` sink and output stream hold no state any claim observes
  (play/pause/volume only touch the device), so they are not fields of
  the embedded `Player`; the operations that only touch the sink are
  modelled as the identity on the embedded state.
-/

/-- The error enum `PlayerError` of `player.rs`, verbatim. -/
inductive PlayerError where
  | UnableToCloneFileHandle
  | NoFileHandle
  | NoSeekIndex
  | NotAbleToSeek
  | UnableToCreateSeekIndex
  | UnableToGetDuration
  | UnableToOpenFile
deriving DecidableEq, Repr

/-- An open OS file handle: an identity for the underlying file plus the
shared cursor position (`std::fs::File::try_clone` shares the cursor, so a
clone is modelled by copying both fields). -/
structure FsFile where
  fileId : Nat
  cursor : Nat
deriving DecidableEq, Repr

/-- The embedded `Player` state: the three fields of `player.rs`'s
`Player` struct that any claim observes (`sink` and `_stream` are device
handles carrying no observable state, see the module docstring). -/
structure Player where
  file_handle : Option FsFile
  duration : Option Nat
  seek_index : Option (List (Nat × Nat))
deriving DecidableEq, Repr

/-- `MAX_FILE_SIZE_FOR_SEEK_INDEX` from `player.rs` (50 MB). -/
def MAX_FILE_SIZE_FOR_SEEK_INDEX : Nat := 1024 * 1024 * 50

/-- `Player::new()`: no file, no duration, no index. (The output-device
acquisition it performs is unwrapped in the source but is outside the
modelled state.) -/
def Player.new : Player :=
  { file_handle := none, duration := none, seek_index := none }

/-- `Player::is_file_loaded`. -/
def Player.is_file_loaded (p : Player) : Bool :=
  p.file_handle.isSome

/-- `Player::is_seekable`. -/
def Player.is_seekable (p : Player) : Bool :=
  p.is_file_loaded && p.seek_index.isSome

/-- `Player::stop`: clears duration, seek index and file handle (the
`sink.stop()` call touches only the device). -/
def Player.stop (p : Player) : Player :=
  { p with duration := none, seek_index := none, file_handle := none }

/-- The loop body of `Player::get_bytes_offset_for_time`: scan the sample
list, breaking at the first sample whose timestamp exceeds `time`,
otherwise overwriting the accumulator with the sample's offset. -/
def scanOffsetForTime : List (Nat × Nat) → Nat → Nat → Nat
  | [], _, offset => offset
  | (frame_time, frame_offset) :: rest, time, offset =>
    if frame_time > time then offset else scanOffsetForTime rest time frame_offset

/-- `Player::get_bytes_offset_for_time`: `NoSeekIndex` when the index is
absent, otherwise the scan starting from offset `0`. -/
def Player.get_bytes_offset_for_time (p : Player) (time : Nat) :
    Except PlayerError Nat :=
  match p.seek_index with
  | none => .error .NoSeekIndex
  | some seek_index => .ok (scanOffsetForTime seek_index time 0)

/-- The loop body of `Player::get_time_for_bytes_offset`: scan the sample
list, breaking at the first sample whose offset exceeds `offset`,
otherwise overwriting the accumulator with the sample's timestamp. -/
def scanTimeForOffset : List (Nat × Nat) → Nat → Nat → Nat
  | [], _, time => time
  | (frame_time, frame_offset) :: rest, offset, time =>
    if frame_offset > offset then time else scanTimeForOffset rest offset frame_time

/-- `Player::get_time_for_bytes_offset`: `NoSeekIndex` when the index is
absent, otherwise the scan starting from time `0`. -/
def Player.get_time_for_bytes_offset (p : Player) (offset : Nat) :
    Except PlayerError Nat :=
  match p.seek_index with
  | none => .error .NoSeekIndex
  | some seek_index => .ok (scanTimeForOffset seek_index offset 0)

/-- Modelled from the spec: the query result the spec's words describe for
the time-to-offset lookup — "the byte offset of the last sample whose
timestamp is ≤ target ... if no sample qualifies, return offset 0". -/
def specLastOffsetLE (idx : List (Nat × Nat)) (t : Nat) : Nat :=
  ((idx.filter fun s => s.1 ≤ t).map Prod.snd).getLastD 0

/-- Modelled from the spec: the query result the spec's words describe for
the offset-to-time lookup — "the timestamp of the last sample whose offset
is ≤ the given cursor position, or zero duration if none qualifies". -/
def specLastTimeLE (idx : List (Nat × Nat)) (o : Nat) : Nat :=
  ((idx.filter fun s => s.2 ≤ o).map Prod.fst).getLastD 0

lemma scanOffsetForTime_eq_getLastD (t : Nat) :
    ∀ (idx : List (Nat × Nat)) (acc : Nat),
      idx.Pairwise (fun a b => a.1 ≤ b.1) →
      scanOffsetForTime idx t acc =
        ((idx.filter fun s => s.1 ≤ t).map Prod.snd).getLastD acc := by
  intro idx
  induction idx with
  | nil => intro acc _; rfl
  | cons hd tl ih =>
    intro acc hpw
    obtain ⟨hhd, htl⟩ := List.pairwise_cons.mp hpw
    by_cases h : hd.1 > t
    · have hfilter : (hd :: tl).filter (fun s => s.1 ≤ t) = [] := by
        rw [List.filter_eq_nil_iff]
        intro a ha
        rcases List.mem_cons.mp ha with rfl | hmem
        · simpa using h
        · have := hhd a hmem
          simp only [decide_eq_true_eq]
          omega
      rw [hfilter]
      obtain ⟨t₁, o₁⟩ := hd
      simp only [scanOffsetForTime, if_pos h, List.map_nil, List.getLastD_nil]
    · obtain ⟨t₁, o₁⟩ := hd
      simp only [not_lt] at h
      simp only [scanOffsetForTime, gt_iff_lt, if_neg (by omega : ¬ t < t₁)]
      rw [ih o₁ htl]
      have : (((t₁, o₁) :: tl).filter fun s => s.1 ≤ t) =
          (t₁, o₁) :: (tl.filter fun s => s.1 ≤ t) := by
        simp [List.filter_cons, h]
      rw [this, List.map_cons, List.getLastD_cons]

lemma scanTimeForOffset_eq_getLastD (o : Nat) :
    ∀ (idx : List (Nat × Nat)) (acc : Nat),
      idx.Pairwise (fun a b => a.2 ≤ b.2) →
      scanTimeForOffset idx o acc =
        ((idx.filter fun s => s.2 ≤ o).map Prod.fst).getLastD acc := by
  intro idx
  induction idx with
  | nil => intro acc _; rfl
  | cons hd tl ih =>
    intro acc hpw
    obtain ⟨hhd, htl⟩ := List.pairwise_cons.mp hpw
    by_cases h : hd.2 > o
    · have hfilter : (hd :: tl).filter (fun s => s.2 ≤ o) = [] := by
        rw [List.filter_eq_nil_iff]
        intro a ha
        rcases List.mem_cons.mp ha with rfl | hmem
        · simpa using h
        · have := hhd a hmem
          simp only [decide_eq_true_eq]
          omega
      rw [hfilter]
      obtain ⟨t₁, o₁⟩ := hd
      simp only [scanTimeForOffset, if_pos h, List.map_nil, List.getLastD_nil]
    · obtain ⟨t₁, o₁⟩ := hd
      simp only [not_lt] at h
      simp only [scanTimeForOffset, gt_iff_lt, if_neg (by omega : ¬ o < o₁)]
      rw [ih t₁ htl]
      have : (((t₁, o₁) :: tl).filter fun s => s.2 ≤ o) =
          (t₁, o₁) :: (tl.filter fun s => s.2 ≤ o) := by
        simp [List.filter_cons, h]
      rw [this, List.map_cons, List.getLastD_cons]

/-- C1: for a player whose seek index is present (and satisfying the data
model's monotone-timestamp invariant), `get_bytes_offset_for_time t`
returns the byte offset of the last sample whose timestamp is ≤ t, and
offset 0 when no sample qualifies (both packaged in `specLastOffsetLE`);
when the index is absent it fails with `NoSeekIndex`. -/
theorem c1_time_to_offset_floor (p : Player) (t : Nat) :
    (∀ idx, p.seek_index = some idx →
      idx.Pairwise (fun a b => a.1 ≤ b.1) →
      p.get_bytes_offset_for_time t = .ok (specLastOffsetLE idx t)) ∧
    (p.seek_index = none →
      p.get_bytes_offset_for_time t = .error .NoSeekIndex) := by
  constructor
  · intro idx hidx hpw
    simp only [Player.get_bytes_offset_for_time, hidx, specLastOffsetLE]
    rw [scanOffsetForTime_eq_getLastD t idx 0 hpw]
  · intro hnone
    simp [Player.get_bytes_offset_for_time, hnone]

/-- Witness for C1 at the index `[(0,0),(1,10),(2,20)]` with target
timestamp 1 (result: offset 10) and at an index-free player. -/
theorem c1_time_to_offset_floor_witness :
    (Player.mk none none (some [(0, 0), (1, 10), (2, 20)])).get_bytes_offset_for_time 1
      = .ok 10 ∧
    (Player.mk none none none).get_bytes_offset_for_time 1
      = .error .NoSeekIndex := by
  constructor
  · have h := (c1_time_to_offset_floor
      (Player.mk none none (some [(0, 0), (1, 10), (2, 20)])) 1).1
      [(0, 0), (1, 10), (2, 20)] rfl (by decide)
    exact h.trans rfl
  · exact (c1_time_to_offset_floor (Player.mk none none none) 1).2 rfl

/-- C5: for a player whose seek index is present (and satisfying the data
model's monotone-offset invariant), `get_time_for_bytes_offset o` — the
resolution `elapsed` uses — returns the timestamp of the last sample whose
byte offset is ≤ o, and zero duration when no sample qualifies (both
packaged in `specLastTimeLE`); when the index is absent it fails with
`NoSeekIndex`. -/
theorem c5_offset_to_time_floor (p : Player) (o : Nat) :
    (∀ idx, p.seek_index = some idx →
      idx.Pairwise (fun a b => a.2 ≤ b.2) →
      p.get_time_for_bytes_offset o = .ok (specLastTimeLE idx o)) ∧
    (p.seek_index = none →
      p.get_time_for_bytes_offset o = .error .NoSeekIndex) := by
  constructor
  · intro idx hidx hpw
    simp only [Player.get_time_for_bytes_offset, hidx, specLastTimeLE]
    rw [scanTimeForOffset_eq_getLastD o idx 0 hpw]
  · intro hnone
    simp [Player.get_time_for_bytes_offset, hnone]

/-- Witness for C5 at the index `[(0,0),(1,10),(2,20)]` with cursor
offset 15 (result: timestamp 1) and at an index-free player. -/
theorem c5_offset_to_time_floor_witness :
    (Player.mk none none (some [(0, 0), (1, 10), (2, 20)])).get_time_for_bytes_offset 15
      = .ok 1 ∧
    (Player.mk none none none).get_time_for_bytes_offset 15
      = .error .NoSeekIndex := by
  constructor
  · have h := (c5_offset_to_time_floor
      (Player.mk none none (some [(0, 0), (1, 10), (2, 20)])) 15).1
      [(0, 0), (1, 10), (2, 20)] rfl (by decide)
    exact h.trans rfl
  · exact (c5_offset_to_time_floor (Player.mk none none none) 15).2 rfl

/-- Outcomes of the external calls `Player::load_file` performs, in source
order. A `false`/`.error` value means that call fails in the modelled run;
calls whose failure the source `.unwrap()`s lead to the `.panic` outcome. -/
structure LoadEnv where
  /-- `file.try_clone().await` — unwrapped in the source. -/
  tokioCloneOk : Bool
  /-- `analyzer.get_duration().await` (matched: failure gives `None`). -/
  durationResult : Except Unit Nat
  /-- `file.metadata().await` — unwrapped in the source. -/
  metadataOk : Bool
  /-- `metadata().len()`. -/
  fileSize : Nat
  /-- `analyzer.get_seek_index().await` (matched: failure gives `None`). -/
  seekIndexResult : Except Unit (List (Nat × Nat))
  /-- `std_file.try_clone()` (matched: failure returns the typed error). -/
  stdCloneOk : Bool
  /-- `std_file.seek(SeekFrom::Start(0))` — unwrapped in the source. -/
  rewindOk : Bool
  /-- `Decoder::new(reader)` — unwrapped in the source. -/
  decodeOk : Bool
deriving Repr

/-- The outcome of a load: `Ok(())`, a typed `Err` (in Rust `&mut self`
style the state mutated so far survives the error, so it is carried
alongside), or a process-aborting panic from an `.unwrap()`. -/
inductive LoadOutcome where
  | ok (p : Player)
  | err (e : PlayerError) (p : Player)
  | panic
deriving DecidableEq, Repr

/-- `Player::load_file`, statement by statement. `self.stop()` runs first;
the duration and (conditionally on the size ceiling) the seek index are
assigned from the analyzer results; `std_file.try_clone()` failure returns
`UnableToCloneFileHandle` with the fields mutated so far; the rewind to
offset 0 goes through the cursor shared between `std_file` and the stored
clone, so on the success path the stored handle's cursor is 0. -/
def Player.load_file (p : Player) (file : FsFile) (env : LoadEnv) : LoadOutcome :=
  let p := p.stop
  if !env.tokioCloneOk then .panic else
  let p := { p with duration := match env.durationResult with
                    | .ok d => some d
                    | .error _ => none }
  if !env.metadataOk then .panic else
  let p := if env.fileSize ≤ MAX_FILE_SIZE_FOR_SEEK_INDEX then
      { p with seek_index := match env.seekIndexResult with
                    | .ok seek_index => some seek_index
                    | .error _ => none }
    else p
  if !env.stdCloneOk then .err .UnableToCloneFileHandle p else
  let p := { p with file_handle := some { fileId := file.fileId, cursor := file.cursor } }
  if !env.rewindOk then .panic else
  let p := { p with file_handle := some { fileId := file.fileId, cursor := 0 } }
  if !env.decodeOk then .panic else
  .ok p

/-- `Player::load_path`: `tokio::fs::File::open` is modelled by the flag
`openOk` (with `file` the handle it yields on success); on failure the
function returns `UnableToOpenFile` before anything else runs. -/
def Player.load_path (p : Player) (openOk : Bool) (file : FsFile) (env : LoadEnv) :
    LoadOutcome :=
  if openOk then p.load_file file env else .err .UnableToOpenFile p

/-- `Player::get_std_file_handle`. -/
def Player.get_std_file_handle (p : Player) : Except PlayerError FsFile :=
  match p.file_handle with
  | some std_file_handle => .ok std_file_handle
  | none => .error .NoFileHandle

/-- `Player::seek`: resolve the byte offset first (so a missing index
errors before a missing handle), then fetch the handle, then reposition
the cursor; `seekOk` models success of the OS-level repositioning. The
mutated player is returned alongside the result. -/
def Player.seek (p : Player) (time_offset : Nat) (seekOk : Bool) :
    Except PlayerError Unit × Player :=
  match p.get_bytes_offset_for_time time_offset with
  | .error e => (.error e, p)
  | .ok bytes_offset =>
    match p.get_std_file_handle with
    | .error e => (.error e, p)
    | .ok fh =>
      if seekOk then
        (.ok (), { p with file_handle := some { fileId := fh.fileId, cursor := bytes_offset } })
      else (.error .NotAbleToSeek, p)

/-- `Player::elapsed`: read the current cursor position of the owned
handle (`tellOk` models success of that OS call) and translate it via
`get_time_for_bytes_offset`. -/
def Player.elapsed (p : Player) (tellOk : Bool) : Except PlayerError Nat :=
  match p.get_std_file_handle with
  | .error e => .error e
  | .ok fh =>
    if tellOk then p.get_time_for_bytes_offset fh.cursor
    else .error .NotAbleToSeek

/-- `Player::play` — touches only the sink, identity on the modelled state. -/
def Player.play (p : Player) : Player := p

/-- `Player::pause` — touches only the sink, identity on the modelled state. -/
def Player.pause (p : Player) : Player := p

/-- `Player::set_volume` — touches only the sink, identity on the modelled
state. -/
def Player.set_volume (p : Player) (_volume : Nat) : Player := p

/-- C3 (what the code actually does): on an input byte stream the decoder
rejects — every other external call succeeding, so the file itself opens
and clones fine — `load_file` does not return a typed error; the
`Decoder::new(reader).unwrap()` in the source panics and aborts the
process. -/
theorem c3_load_file_panics_on_undecodable_input :
    Player.new.load_file ⟨0, 0⟩
      ⟨true, .ok 100, true, 10, .ok [(0, 0)], true, true, false⟩ = .panic := rfl

/-- C4: `load_file` (and `load_path` once the open has succeeded) runs
`stop` first, so its outcome never depends on the prior file handle,
duration or seek index; consequently, after two sequential successful
loads, the final state is exactly what loading the second file into a
fresh player produces — it reflects only the second file, never a mix. -/
theorem c4_load_releases_prior_state :
    (∀ p q : Player, ∀ f env, p.load_file f env = q.load_file f env) ∧
    (∀ p q : Player, ∀ f env, p.load_path true f env = q.load_path true f env) ∧
    (∀ (p p1 p2 : Player) (f1 : FsFile) (e1 : LoadEnv) (f2 : FsFile) (e2 : LoadEnv),
      p.load_file f1 e1 = .ok p1 → p1.load_file f2 e2 = .ok p2 →
      Player.new.load_file f2 e2 = .ok p2) := by
  have hstate : ∀ p q : Player, ∀ f env, p.load_file f env = q.load_file f env := by
    intro p q f env
    cases p
    cases q
    rfl
  refine ⟨hstate, ?_, ?_⟩
  · intro p q f env
    simpa [Player.load_path] using hstate p q f env
  · intro p p1 p2 f1 e1 f2 e2 _ h2
    rw [hstate Player.new p1 f2 e2]
    exact h2

/-- Witness for C4: a concrete pair of sequential successful loads; the
final state equals a fresh load of the second file. -/
theorem c4_load_releases_prior_state_witness :
    Player.new.load_file ⟨2, 3⟩
      ⟨true, .ok 2, true, 0, .ok [(0, 0), (1, 7)], true, true, true⟩
      = .ok (Player.mk (some ⟨2, 0⟩) (some 2) (some [(0, 0), (1, 7)])) :=
  c4_load_releases_prior_state.2.2 Player.new
    (Player.mk (some ⟨1, 0⟩) (some 1) (some [(0, 0)]))
    (Player.mk (some ⟨2, 0⟩) (some 2) (some [(0, 0), (1, 7)]))
    ⟨1, 5⟩ ⟨true, .ok 1, true, 0, .ok [(0, 0)], true, true, true⟩
    ⟨2, 3⟩ ⟨true, .ok 2, true, 0, .ok [(0, 0), (1, 7)], true, true, true⟩
    rfl rfl

lemma load_file_success_shape (p : Player) (f : FsFile) (env : LoadEnv)
    (h1 : env.tokioCloneOk = true) (h2 : env.metadataOk = true)
    (h3 : env.stdCloneOk = true) (h4 : env.rewindOk = true)
    (h5 : env.decodeOk = true) :
    p.load_file f env = .ok
      (Player.mk (some ⟨f.fileId, 0⟩)
        (match env.durationResult with | .ok d => some d | .error _ => none)
        (if env.fileSize ≤ MAX_FILE_SIZE_FOR_SEEK_INDEX then
            match env.seekIndexResult with
            | .ok seek_index => some seek_index
            | .error _ => none
          else none)) := by
  by_cases hsz : env.fileSize ≤ MAX_FILE_SIZE_FOR_SEEK_INDEX <;>
    simp [Player.load_file, Player.stop, h1, h2, h3, h4, h5, hsz]

/-- C6: when the load otherwise succeeds (every unwrapped external call,
the std clone and the decoder succeed), an analyzer failure is not
propagated: a failed duration query still yields `Ok` with
`duration = none`, and a failed seek-index query still yields `Ok` with
no seek index, so `is_seekable` is false — degraded capability is the
only observable effect. -/
theorem c6_analysis_failures_only_degrade (p : Player) (f : FsFile) (env : LoadEnv)
    (h1 : env.tokioCloneOk = true) (h2 : env.metadataOk = true)
    (h3 : env.stdCloneOk = true) (h4 : env.rewindOk = true)
    (h5 : env.decodeOk = true) :
    (env.durationResult = .error () →
      ∃ p', p.load_file f env = .ok p' ∧ p'.duration = none) ∧
    (env.seekIndexResult = .error () →
      ∃ p', p.load_file f env = .ok p' ∧ p'.seek_index = none ∧
        p'.is_seekable = false) := by
  rw [load_file_success_shape p f env h1 h2 h3 h4 h5]
  constructor
  · intro hdur
    exact ⟨_, rfl, by simp [hdur]⟩
  · intro hidx
    refine ⟨_, rfl, by simp [hidx], ?_⟩
    simp [Player.is_seekable, Player.is_file_loaded, hidx]

/-- Witness for C6: a load in which both analyzer queries fail still
returns `Ok`, with no duration and no seekability. -/
theorem c6_analysis_failures_only_degrade_witness :
    (∃ p', Player.new.load_file ⟨0, 0⟩ ⟨true, .error (), true, 0, .error (), true, true, true⟩
        = .ok p' ∧ p'.duration = none) ∧
    (∃ p', Player.new.load_file ⟨0, 0⟩ ⟨true, .error (), true, 0, .error (), true, true, true⟩
        = .ok p' ∧ p'.seek_index = none ∧ p'.is_seekable = false) := by
  have h := c6_analysis_failures_only_degrade Player.new ⟨0, 0⟩
    ⟨true, .error (), true, 0, .error (), true, true, true⟩ rfl rfl rfl rfl rfl
  exact ⟨h.1 rfl, h.2 rfl⟩

/-- C9: `load_path` on a path that cannot be opened returns
`UnableToOpenFile` with the player state untouched: `stop` never ran, so
any previously loaded handle, duration and seek index survive verbatim
(the returned state is `p` itself). -/
theorem c9_open_failure_leaves_state_unchanged (p : Player) (f : FsFile) (env : LoadEnv) :
    p.load_path false f env = .err .UnableToOpenFile p := rfl

/-- C7 counterexample: a freshly constructed player has no file loaded,
yet `seek` fails with `NoSeekIndex`, not `NoFileHandle` — the source
resolves the byte offset (and so checks the index) before it ever looks
at the file handle. -/
theorem c7_counterexample :
    Player.new.is_file_loaded = false ∧
    Player.new.seek 3 true = (.error .NoSeekIndex, Player.new) ∧
    PlayerError.NoSeekIndex ≠ PlayerError.NoFileHandle :=
  ⟨rfl, rfl, by decide⟩

/-- C7 as amended: `seek` fails with `NoSeekIndex` whenever the seek
index is absent (even when no file is loaded, because the index check
comes first); with an index present but no file handle it fails with
`NoFileHandle`; with both present it fails with `NotAbleToSeek` exactly
when the OS-level repositioning fails, and on success it repositions the
owned file cursor to the resolved byte offset. Every failing case leaves
the state unchanged. -/
theorem c7_seek_error_cases (p : Player) (t : Nat) (seekOk : Bool) :
    (p.seek_index = none → p.seek t seekOk = (.error .NoSeekIndex, p)) ∧
    (p.seek_index.isSome = true → p.file_handle = none →
      p.seek t seekOk = (.error .NoFileHandle, p)) ∧
    (∀ idx fh, p.seek_index = some idx → p.file_handle = some fh →
      p.seek t seekOk =
        if seekOk then
          (.ok (), { p with
            file_handle := some (FsFile.mk fh.fileId (scanOffsetForTime idx t 0)) })
        else (.error .NotAbleToSeek, p)) := by
  refine ⟨?_, ?_, ?_⟩
  · intro hnone
    simp [Player.seek, Player.get_bytes_offset_for_time, hnone]
  · intro hidx hfh
    obtain ⟨idx, hsome⟩ := Option.isSome_iff_exists.mp hidx
    simp [Player.seek, Player.get_bytes_offset_for_time, Player.get_std_file_handle,
      hsome, hfh]
  · intro idx fh hsome hfh
    cases seekOk <;>
      simp [Player.seek, Player.get_bytes_offset_for_time, Player.get_std_file_handle,
        hsome, hfh]

/-- Witness for C7 (amended): all three error shapes plus the success
path at concrete players. -/
theorem c7_seek_error_cases_witness :
    (Player.mk (some ⟨7, 0⟩) none none).seek 3 true
      = (.error .NoSeekIndex, Player.mk (some ⟨7, 0⟩) none none) ∧
    (Player.mk none none (some [(0, 4)])).seek 3 true
      = (.error .NoFileHandle, Player.mk none none (some [(0, 4)])) ∧
    (Player.mk (some ⟨7, 99⟩) none (some [(0, 4), (2, 9)])).seek 3 false
      = (.error .NotAbleToSeek, Player.mk (some ⟨7, 99⟩) none (some [(0, 4), (2, 9)])) ∧
    (Player.mk (some ⟨7, 99⟩) none (some [(0, 4), (2, 9)])).seek 3 true
      = (.ok (), Player.mk (some ⟨7, 9⟩) none (some [(0, 4), (2, 9)])) := by
  refine ⟨?_, ?_, ?_, ?_⟩
  · exact (c7_seek_error_cases (Player.mk (some ⟨7, 0⟩) none none) 3 true).1 rfl
  · exact (c7_seek_error_cases (Player.mk none none (some [(0, 4)])) 3 true).2.1 rfl rfl
  · exact ((c7_seek_error_cases (Player.mk (some ⟨7, 99⟩) none (some [(0, 4), (2, 9)])) 3
      false).2.2 [(0, 4), (2, 9)] ⟨7, 99⟩ rfl rfl).trans rfl
  · exact ((c7_seek_error_cases (Player.mk (some ⟨7, 99⟩) none (some [(0, 4), (2, 9)])) 3
      true).2.2 [(0, 4), (2, 9)] ⟨7, 99⟩ rfl rfl).trans rfl

/-- C8 counterexample: the table `[(0, 0), (0, 100)]` is non-decreasing
in both fields and contains the sample `(0, 0)`, but the time-to-offset
query at that sample's timestamp 0 returns offset 100, not the sample's
own offset 0 — with merely non-decreasing timestamps a sample need not be
a fixed point of its lookup. -/
theorem c8_counterexample :
    ([(0, 0), (0, 100)] : List (Nat × Nat)).Pairwise (fun a b => a.1 ≤ b.1) ∧
    ([(0, 0), (0, 100)] : List (Nat × Nat)).Pairwise (fun a b => a.2 ≤ b.2) ∧
    ((0, 0) ∈ ([(0, 0), (0, 100)] : List (Nat × Nat))) ∧
    (Player.mk none none (some [(0, 0), (0, 100)])).get_bytes_offset_for_time 0
      = .ok 100 ∧
    (100 : Nat) ≠ 0 := by
  refine ⟨by decide, by decide, by decide, rfl, by decide⟩

lemma scanOffsetForTime_of_forall_gt (t : Nat) :
    ∀ (idx : List (Nat × Nat)) (acc : Nat), (∀ a ∈ idx, t < a.1) →
      scanOffsetForTime idx t acc = acc := by
  intro idx
  induction idx with
  | nil => intro acc _; rfl
  | cons hd tl _ =>
    intro acc hall
    obtain ⟨t₁, o₁⟩ := hd
    have : t < t₁ := hall (t₁, o₁) (List.mem_cons_self _ _)
    simp only [scanOffsetForTime, gt_iff_lt, if_pos this]

lemma scanTimeForOffset_of_forall_gt (o : Nat) :
    ∀ (idx : List (Nat × Nat)) (acc : Nat), (∀ a ∈ idx, o < a.2) →
      scanTimeForOffset idx o acc = acc := by
  intro idx
  induction idx with
  | nil => intro acc _; rfl
  | cons hd tl _ =>
    intro acc hall
    obtain ⟨t₁, o₁⟩ := hd
    have : o < o₁ := hall (t₁, o₁) (List.mem_cons_self _ _)
    simp only [scanTimeForOffset, gt_iff_lt, if_pos this]

lemma scanOffsetForTime_fixpoint (t o : Nat) :
    ∀ (idx : List (Nat × Nat)) (acc : Nat),
      idx.Pairwise (fun a b => a.1 < b.1) → (t, o) ∈ idx →
      scanOffsetForTime idx t acc = o := by
  intro idx
  induction idx with
  | nil => intro acc _ hmem; cases hmem
  | cons hd tl ih =>
    intro acc hpw hmem
    obtain ⟨hhd, htl⟩ := List.pairwise_cons.mp hpw
    obtain ⟨t₁, o₁⟩ := hd
    rcases List.mem_cons.mp hmem with heq | hmem'
    · injection heq with h1 h2
      subst h1
      subst h2
      simp only [scanOffsetForTime, gt_iff_lt, if_neg (lt_irrefl t)]
      exact scanOffsetForTime_of_forall_gt t tl o fun a ha => hhd a ha
    · have h₁ : t₁ < t := hhd (t, o) hmem'
      simp only [scanOffsetForTime, gt_iff_lt, if_neg (by omega : ¬ t < t₁)]
      exact ih o₁ htl hmem'

lemma scanTimeForOffset_fixpoint (t o : Nat) :
    ∀ (idx : List (Nat × Nat)) (acc : Nat),
      idx.Pairwise (fun a b => a.2 < b.2) → (t, o) ∈ idx →
      scanTimeForOffset idx o acc = t := by
  intro idx
  induction idx with
  | nil => intro acc _ hmem; cases hmem
  | cons hd tl ih =>
    intro acc hpw hmem
    obtain ⟨hhd, htl⟩ := List.pairwise_cons.mp hpw
    obtain ⟨t₁, o₁⟩ := hd
    rcases List.mem_cons.mp hmem with heq | hmem'
    · injection heq with h1 h2
      subst h1
      subst h2
      simp only [scanTimeForOffset, gt_iff_lt, if_neg (lt_irrefl o)]
      exact scanTimeForOffset_of_forall_gt o tl t fun a ha => hhd a ha
    · have h₁ : o₁ < o := hhd (t, o) hmem'
      simp only [scanTimeForOffset, gt_iff_lt, if_neg (by omega : ¬ o < o₁)]
      exact ih t₁ htl hmem'

/-- C8 as amended: under a strictly increasing sample table (strict in
both fields — the non-strict table of the counterexample defeats the
claim), every sample `(t, o)` of the index is a fixed point of its own
lookup direction: the time query at `t` returns exactly `o` and the
offset query at `o` returns exactly `t`. -/
theorem c8_sample_fixpoints (p : Player) (idx : List (Nat × Nat)) (t o : Nat)
    (hidx : p.seek_index = some idx)
    (ht : idx.Pairwise (fun a b => a.1 < b.1))
    (ho : idx.Pairwise (fun a b => a.2 < b.2))
    (hmem : (t, o) ∈ idx) :
    p.get_bytes_offset_for_time t = .ok o ∧
    p.get_time_for_bytes_offset o = .ok t := by
  constructor
  · simp only [Player.get_bytes_offset_for_time, hidx]
    rw [scanOffsetForTime_fixpoint t o idx 0 ht hmem]
  · simp only [Player.get_time_for_bytes_offset, hidx]
    rw [scanTimeForOffset_fixpoint t o idx 0 ho hmem]

/-- Witness for C8 (amended) at the strictly increasing table
`[(0, 0), (1, 1000), (2, 2000)]` and its middle sample. -/
theorem c8_sample_fixpoints_witness :
    (Player.mk none none (some [(0, 0), (1, 1000), (2, 2000)])).get_bytes_offset_for_time 1
      = .ok 1000 ∧
    (Player.mk none none (some [(0, 0), (1, 1000), (2, 2000)])).get_time_for_bytes_offset 1000
      = .ok 1 :=
  c8_sample_fixpoints (Player.mk none none (some [(0, 0), (1, 1000), (2, 2000)]))
    [(0, 0), (1, 1000), (2, 2000)] 1 1000 rfl (by decide) (by decide) (by decide)

/-- The public `Player` operations, each carrying the outcomes of the
external calls it performs. -/
inductive PlayerOp where
  | load_path (openOk : Bool) (file : FsFile) (env : LoadEnv)
  | load_file (file : FsFile) (env : LoadEnv)
  | seek (t : Nat) (seekOk : Bool)
  | play
  | pause
  | stop
  | set_volume (v : Nat)

/-- One public operation applied to a player: `some (result, next state)`
for a normal return (`Ok` or a typed error), `none` when the operation
panicked (the process aborts, leaving no state). -/
def Player.step (p : Player) (op : PlayerOp) : Option (Except PlayerError Unit × Player) :=
  match op with
  | .load_path openOk f env =>
    match p.load_path openOk f env with
    | .ok p' => some (.ok (), p')
    | .err e p' => some (.error e, p')
    | .panic => none
  | .load_file f env =>
    match p.load_file f env with
    | .ok p' => some (.ok (), p')
    | .err e p' => some (.error e, p')
    | .panic => none
  | .seek t seekOk => some (p.seek t seekOk)
  | .play => some (.ok (), p.play)
  | .pause => some (.ok (), p.pause)
  | .stop => some (.ok (), p.stop)
  | .set_volume v => some (.ok (), p.set_volume v)

/-- States reachable from `Player::new()` through the public operations,
error returns included (a panic aborts the process and yields no state). -/
inductive Reachable : Player → Prop where
  | init : Reachable Player.new
  | step (p p' : Player) (op : PlayerOp) (r : Except PlayerError Unit) :
      Reachable p → p.step op = some (r, p') → Reachable p'

/-- C2 counterexample: from a fresh player, a `load_file` whose
`std_file.try_clone()` fails returns `UnableToCloneFileHandle`, leaving a
reachable player whose seek index is present while its file handle is
absent — the claimed invariant fails in exactly this error state. -/
theorem c2_counterexample :
    Reachable (Player.mk none none (some [(0, 0)])) ∧
    (Player.mk none none (some [(0, 0)])).seek_index.isSome = true ∧
    (Player.mk none none (some [(0, 0)])).file_handle.isSome = false := by
  refine ⟨?_, rfl, rfl⟩
  exact Reachable.step Player.new (Player.mk none none (some [(0, 0)]))
    (.load_file ⟨0, 0⟩ ⟨true, .error (), true, 0, .ok [(0, 0)], false, true, true⟩)
    (.error .UnableToCloneFileHandle) Reachable.init rfl

/-- States reachable from `Player::new()` through the public operations
when no operation ever returned `UnableToCloneFileHandle` — the one error
return the counterexample shows breaking the invariant. -/
inductive ReachableNoCloneErr : Player → Prop where
  | init : ReachableNoCloneErr Player.new
  | step (p p' : Player) (op : PlayerOp) (r : Except PlayerError Unit) :
      ReachableNoCloneErr p → p.step op = some (r, p') →
      r ≠ .error .UnableToCloneFileHandle → ReachableNoCloneErr p'

lemma load_file_outcome_cases (p : Player) (f : FsFile) (env : LoadEnv) :
    (∃ p', p.load_file f env = .ok p' ∧ p'.file_handle.isSome = true) ∨
    (∃ p', p.load_file f env = .err .UnableToCloneFileHandle p') ∨
    p.load_file f env = .panic := by
  obtain ⟨tc, dr, mo, fs, sr, sc, ro, dc⟩ := env
  by_cases hsz : fs ≤ MAX_FILE_SIZE_FOR_SEEK_INDEX <;>
    cases tc <;> cases mo <;> cases sc <;> cases ro <;> cases dc <;>
      simp [Player.load_file, Player.stop, hsz]

lemma seek_preserves_fields (p : Player) (t : Nat) (seekOk : Bool) :
    (p.seek t seekOk).2.seek_index = p.seek_index ∧
    (p.seek t seekOk).2.file_handle.isSome = p.file_handle.isSome := by
  obtain ⟨fh, d, si⟩ := p
  cases si <;> cases fh <;> cases seekOk <;>
    simp [Player.seek, Player.get_bytes_offset_for_time, Player.get_std_file_handle]

/-- C2 as amended: the invariant `seek_index present ⇒ file_handle
present` holds in every state reachable through the public operations in
which no call returned `UnableToCloneFileHandle` (the counterexample's
error state is the sole exception), and on every player `is_seekable` is
true exactly when both the handle and the index are present. -/
theorem c2_seekable_invariant (p : Player) (h : ReachableNoCloneErr p) :
    (p.seek_index.isSome = true → p.file_handle.isSome = true) ∧
    p.is_seekable = (p.file_handle.isSome && p.seek_index.isSome) := by
  refine ⟨?_, rfl⟩
  induction h with
  | init => intro hidx; cases hidx
  | step q p' op r _ hstep hne ih =>
    cases op with
    | load_path openOk f env =>
      cases openOk with
      | false =>
        simp only [Player.step, Player.load_path, Bool.false_eq_true, if_neg] at hstep
        simp only [if_false, Option.some.injEq, Prod.mk.injEq] at hstep
        obtain ⟨-, rfl⟩ := hstep
        exact ih
      | true =>
        simp only [Player.step, Player.load_path, if_true] at hstep
        rcases load_file_outcome_cases q f env with ⟨p'', heq, hfh⟩ | ⟨p'', heq⟩ | heq <;>
          rw [heq] at hstep
        · simp only [Option.some.injEq, Prod.mk.injEq] at hstep
          obtain ⟨-, rfl⟩ := hstep
          intro _
          exact hfh
        · simp only [Option.some.injEq, Prod.mk.injEq] at hstep
          obtain ⟨hr, -⟩ := hstep
          exact absurd hr.symm hne
        · cases hstep
    | load_file f env =>
      simp only [Player.step] at hstep
      rcases load_file_outcome_cases q f env with ⟨p'', heq, hfh⟩ | ⟨p'', heq⟩ | heq <;>
        rw [heq] at hstep
      · simp only [Option.some.injEq, Prod.mk.injEq] at hstep
        obtain ⟨-, rfl⟩ := hstep
        intro _
        exact hfh
      · simp only [Option.some.injEq, Prod.mk.injEq] at hstep
        obtain ⟨hr, -⟩ := hstep
        exact absurd hr.symm hne
      · cases hstep
    | seek t seekOk =>
      simp only [Player.step, Option.some.injEq] at hstep
      have hpres := seek_preserves_fields q t seekOk
      have hp' : p' = (q.seek t seekOk).2 := by rw [hstep]
      rw [hp', hpres.1, hpres.2]
      exact ih
    | play =>
      simp only [Player.step, Player.play, Option.some.injEq, Prod.mk.injEq] at hstep
      obtain ⟨-, rfl⟩ := hstep
      exact ih
    | pause =>
      simp only [Player.step, Player.pause, Option.some.injEq, Prod.mk.injEq] at hstep
      obtain ⟨-, rfl⟩ := hstep
      exact ih
    | stop =>
      simp only [Player.step, Player.stop, Option.some.injEq, Prod.mk.injEq] at hstep
      obtain ⟨-, rfl⟩ := hstep
      intro hidx
      cases hidx
    | set_volume v =>
      simp only [Player.step, Player.set_volume, Option.some.injEq, Prod.mk.injEq] at hstep
      obtain ⟨-, rfl⟩ := hstep
      exact ih

/-- Witness for C2 (amended): the state after one clean `load_file` from
a fresh player (no `UnableToCloneFileHandle` anywhere), with both parts
of the invariant evaluated there. -/
theorem c2_seekable_invariant_witness :
    (Player.mk (some ⟨1, 0⟩) (some 9) (some [(0, 0)])).file_handle.isSome = true ∧
    (Player.mk (some ⟨1, 0⟩) (some 9) (some [(0, 0)])).is_seekable = true := by
  have hreach : ReachableNoCloneErr (Player.mk (some ⟨1, 0⟩) (some 9) (some [(0, 0)])) :=
    ReachableNoCloneErr.step Player.new (Player.mk (some ⟨1, 0⟩) (some 9) (some [(0, 0)]))
      (.load_file ⟨1, 4⟩ ⟨true, .ok 9, true, 0, .ok [(0, 0)], true, true, true⟩)
      (.ok ()) ReachableNoCloneErr.init rfl (by simp)
  have h := c2_seekable_invariant (Player.mk (some ⟨1, 0⟩) (some 9) (some [(0, 0)])) hreach
  exact ⟨h.1 rfl, h.2.trans rfl⟩

/-- The `Music` registry of `music.rs`: `DashMap<PlayerId, Arc<RwLock<Player>>>`
modelled as a finite partial map from keys to players. `add_player` wraps
the given player in a fresh `Arc<RwLock<..>>` and `get_player` clones that
`Arc`; since the lock wrapper is determined by (and only ever guards) the
player value stored at the key, the wrapper is modelled by the player
value itself. -/
structure Music where
  players : String → Option Player

/-- `Music::new()`: the empty registry. -/
def Music.new : Music :=
  ⟨fun _ => none⟩

/-- `Music::add_player`: `DashMap::insert`, overwriting any entry at the
key. -/
def Music.add_player (m : Music) (key : String) (player : Player) : Music :=
  ⟨fun k => if k = key then some player else m.players k⟩

/-- `Music::remove_player`: `DashMap::remove`; a total operation, absent
keys included. -/
def Music.remove_player (m : Music) (key : String) : Music :=
  ⟨fun k => if k = key then none else m.players k⟩

/-- `Music::get_player`: `DashMap::get` plus `Arc::clone` of the stored
lock wrapper; `None` for an absent key. -/
def Music.get_player (m : Music) (key : String) : Option Player :=
  m.players key

/-- C10: `add_player(key, p2)` after `add_player(key, p1)` overwrites:
`get_player(key)` afterwards resolves only to `p2`, and — provided `p1`
is a distinct player not also registered elsewhere — `p1` is no longer
reachable through any key; `get_player` returns `none` on every key of an
empty registry and on a just-removed key; and `remove_player` of an
absent key is a total no-op, not an error. -/
theorem c10_registry_overwrite (m : Music) (k : String) (p1 p2 : Player) :
    ((m.add_player k p1).add_player k p2).get_player k = some p2 ∧
    (p1 ≠ p2 → (∀ k', m.get_player k' ≠ some p1) →
      ∀ k', ((m.add_player k p1).add_player k p2).get_player k' ≠ some p1) ∧
    (∀ k', Music.new.get_player k' = none) ∧
    (∀ k', (m.remove_player k').get_player k' = none) ∧
    (∀ k', m.get_player k' = none →
      ∀ k'', (m.remove_player k').get_player k'' = m.get_player k'') := by
  refine ⟨?_, ?_, ?_, ?_, ?_⟩
  · simp [Music.add_player, Music.get_player]
  · intro hne habsent k'
    simp only [Music.add_player, Music.get_player]
    split_ifs with h1
    · simp only [ne_eq, Option.some.injEq]
      exact fun h => hne h.symm
    · exact habsent k'
  · intro k'
    rfl
  · intro k'
    simp [Music.remove_player, Music.get_player]
  · intro k' habsent k''
    simp only [Music.remove_player, Music.get_player]
    split_ifs with h1
    · subst h1
      exact habsent.symm
    · rfl

/-- Witness for C10: the concrete scenario of the spec — two players at
key "a"; after the second `add_player`, lookup yields the second player
and the first is gone from every probed key. -/
theorem c10_registry_overwrite_witness :
    ((Music.new.add_player "a" (Player.mk none (some 1) none)).add_player "a"
        (Player.mk none (some 2) none)).get_player "a"
      = some (Player.mk none (some 2) none) ∧
    (((Music.new.add_player "a" (Player.mk none (some 1) none)).add_player "a"
        (Player.mk none (some 2) none)).get_player "a"
      ≠ some (Player.mk none (some 1) none)) ∧
    ((Music.new.add_player "a" (Player.mk none (some 1) none)).add_player "a"
        (Player.mk none (some 2) none)).get_player "b" = none := by
  have h := c10_registry_overwrite Music.new "a" (Player.mk none (some 1) none)
    (Player.mk none (some 2) none)
  refine ⟨h.1, ?_, h.2.2.1 "b"⟩
  exact h.2.1 (by decide) (fun k' => by simp [Music.new, Music.get_player]) "a"
